import Mathlib

/-!
Shallow embedding of `rust-uio`'s `src/linux.rs` (the `UioDevice` API over a
Linux userspace-I/O device), together with proofs about the behaviour the
specification attributes to it.

The code is I/O-bound, so the environment (file contents, directory listings,
the kernel's `mmap`/`write`/`read` answers, the advisory-lock state) is passed
in explicitly.  File contents are modelled as `List Char` (sysfs attribute
files are ASCII text); machine integers are `Nat` with explicit bounds
(`usize` on a 64-bit platform, `u32`); byte order is little-endian, matching
the platforms the crate targets.  Rust panics (from `expect` and from
out-of-bounds byte slicing) are modelled by a dedicated `Outcome` layer.
-/

namespace Uio

/-- Platform `usize` is 64 bits wide (the crate targets 64-bit Linux). -/
def usizeBound : Nat := 2 ^ 64

/-- Bound for Rust's `u32`. -/
def u32Bound : Nat := 2 ^ 32

/-- `const PAGESIZE: usize = 4096;` -/
def PAGESIZE : Nat := 4096

/-- Abstract `std::io::Error` values (only the identity of the error matters
to the embedded code; it is threaded through unchanged). -/
inductive IoError where
  | notFound
  | permissionDenied
  | wouldBlock
  | other (code : Nat)
deriving DecidableEq

/-- `enum UioError { Address, Size, Io(io::Error), Map(nix::Error), Parse }`.
A `nix::Error` is an errno, modelled as a `Nat`. -/
inductive UioError where
  | addressInvalid
  | sizeInvalid
  | ioFailed (e : IoError)
  | mapFailed (errno : Nat)
  | parseFailed
deriving DecidableEq

/-- Result of running a fallible Rust function that may also panic
(`expect`, out-of-bounds slicing). -/
inductive Outcome (α : Type) where
  | panicked (msg : String)
  | ok (a : α)
  | err (e : UioError)
deriving DecidableEq

/-! ### Character/string primitives used by the Rust code -/

/-- Whitespace recognised by `str::trim` (the ASCII fragment; sysfs attribute
text is ASCII). -/
def isRustWhitespace (c : Char) : Bool :=
  c = ' ' || c = '\t' || c = '\n' || c = '\r'

/-- `str::trim`: strip leading and trailing whitespace. -/
def rustTrim (s : List Char) : List Char :=
  ((s.dropWhile isRustWhitespace).reverse.dropWhile isRustWhitespace).reverse

/-- `char::to_digit(radix)`: digit value of `c` in base `radix`, if valid. -/
def toDigit (radix : Nat) (c : Char) : Option Nat :=
  let v : Option Nat :=
    if '0' ≤ c ∧ c ≤ '9' then some (c.toNat - '0'.toNat)
    else if 'a' ≤ c ∧ c ≤ 'z' then some (c.toNat - 'a'.toNat + 10)
    else if 'A' ≤ c ∧ c ≤ 'Z' then some (c.toNat - 'A'.toNat + 10)
    else none
  match v with
  | some d => if d < radix then some d else none
  | none => none

/-- Digit-accumulation loop of `from_str_radix`, with the per-step overflow
check of the checked arithmetic (`bound` is `2^width`). -/
def parseDigitsAux (radix bound : Nat) : List Char → Nat → Option Nat
  | [], acc => some acc
  | c :: cs, acc =>
    match toDigit radix c with
    | none => none
    | some d =>
      if acc * radix + d < bound then parseDigitsAux radix bound cs (acc * radix + d)
      else none

/-- `uN::from_str_radix(s, radix)` for an unsigned integer type with values
below `bound`: an optional leading `+` is accepted, a leading `-` is rejected
(unsigned type), the digit string must be non-empty, every character must be a
valid digit for `radix`, and the accumulated value must stay below `bound`. -/
def fromStrRadix (radix bound : Nat) (s : List Char) : Option Nat :=
  match s with
  | [] => none
  | c :: rest =>
    if c = '+' then
      match rest with
      | [] => none
      | _ => parseDigitsAux radix bound rest 0
    else if c = '-' then none
    else parseDigitsAux radix bound s 0

/-! ### The attribute reader -/

/-- `UioDevice::read_file`: open the file, read it to a string, trim.
The whole filesystem interaction is summarised by `raw`, the result of
opening-and-reading the file. -/
def read_file (raw : Except IoError (List Char)) : Except UioError (List Char) :=
  match raw with
  | .error e => .error (.ioFailed e)
  | .ok s => .ok (rustTrim s)

/-- Message of the panic raised by an out-of-range byte-slice `&buffer[2..]`. -/
def sliceOobMsg : String := "byte index 2 is out of bounds"

/-- `UioDevice::map_size`: read and trim the `size` attribute, slice off the
first two bytes unconditionally (`&buffer[2..]`, which panics when the trimmed
text is shorter than two bytes), and hex-parse the remainder as a `usize`. -/
def map_size (raw : Except IoError (List Char)) : Outcome Nat :=
  match read_file raw with
  | .error e => .err e
  | .ok buffer =>
    if buffer.length < 2 then .panicked sliceOobMsg
    else
      match fromStrRadix 16 usizeBound (buffer.drop 2) with
      | some v => .ok v
      | none => .err .parseFailed

/-- `UioDevice::map_addr`: identical shape to `map_size`, on the `addr`
attribute file. -/
def map_addr (raw : Except IoError (List Char)) : Outcome Nat :=
  match read_file raw with
  | .error e => .err e
  | .ok buffer =>
    if buffer.length < 2 then .panicked sliceOobMsg
    else
      match fromStrRadix 16 usizeBound (buffer.drop 2) with
      | some v => .ok v
      | none => .err .parseFailed

/-- `UioDevice::map_name`: read and trim the `name` attribute. -/
def map_name (raw : Except IoError (List Char)) : Except UioError (List Char) :=
  read_file raw

/-- `UioDevice::get_event_count`: read the `event` attribute and parse it with
`u32::from_str_radix(&buffer, 10)`. -/
def get_event_count (raw : Except IoError (List Char)) : Except UioError Nat :=
  match read_file raw with
  | .error e => .error e
  | .ok buffer =>
    match fromStrRadix 10 u32Bound buffer with
    | some v => .ok v
    | none => .error .parseFailed

/-! ### The interrupt controller

`File::write` and `File::read` return the number of bytes transferred; the
syscall layer is passed in as a function/value.  For `write` the environment
maps the buffer written to the syscall's answer; for `read` it provides the
bytes the kernel delivers (the code's 4-byte buffer is zero-initialised and
`read` fills a prefix of it). -/

/-- The four little-endian bytes of a `u32` (`transmute` on the crate's
little-endian targets). -/
def u32ToBytes (v : Nat) : List Nat :=
  [v % 256, v / 256 % 256, v / 256 ^ 2 % 256, v / 256 ^ 3 % 256]

/-- Reassemble a `u32` from four little-endian bytes (`transmute` back). -/
def u32OfBytes : List Nat → Nat
  | [b0, b1, b2, b3] => b0 + b1 * 256 + b2 * 256 ^ 2 + b3 * 256 ^ 3
  | _ => 0

/-- `UioDevice::irq_enable`: write the 4 bytes of `1u32` to the device file;
the number of bytes actually written is discarded. -/
def irq_enable (writeSys : List Nat → Except IoError Nat) : Except IoError Unit :=
  match writeSys (u32ToBytes 1) with
  | .error e => .error e
  | .ok _ => .ok ()

/-- `UioDevice::irq_disable`: write the 4 bytes of `0u32`; the count is
discarded. -/
def irq_disable (writeSys : List Nat → Except IoError Nat) : Except IoError Unit :=
  match writeSys (u32ToBytes 0) with
  | .error e => .error e
  | .ok _ => .ok ()

/-- `UioDevice::irq_wait`: `read` into a zero-initialised 4-byte buffer
(`readSys` is the data the kernel delivers; the code keeps at most 4 bytes of
it and the rest of the buffer stays zero), then `transmute` the buffer. -/
def irq_wait (readSys : Except IoError (List Nat)) : Except IoError Nat :=
  match readSys with
  | .error e => .error e
  | .ok data =>
    let filled := data.take 4
    .ok (u32OfBytes (filled ++ List.replicate (4 - filled.length) 0))

/-! ### Directory enumeration

A directory listing is `fs::read_dir`'s answer: either an I/O error, or a
sequence of iteration results, each an entry or an iteration error (`p?`).
An entry carries an OS file name (possibly not valid UTF-8), the answer of
`entry.file_type()?.is_dir()`, and the answer of `fs::metadata(..)?.len()` —
each function below consults only the fields the Rust code touches. -/

instance {ε α : Type} [DecidableEq ε] [DecidableEq α] : DecidableEq (Except ε α)
  | .error e1, .error e2 =>
    if h : e1 = e2 then .isTrue (by rw [h])
    else .isFalse (by intro hh; cases hh; exact h rfl)
  | .error _, .ok _ => .isFalse (by intro h; cases h)
  | .ok _, .error _ => .isFalse (by intro h; cases h)
  | .ok a1, .ok a2 =>
    if h : a1 = a2 then .isTrue (by rw [h])
    else .isFalse (by intro hh; cases hh; exact h rfl)

/-- An `OsString` file name: valid UTF-8 text, or not. -/
inductive OsName where
  | utf8 (s : List Char)
  | nonUtf8
deriving DecidableEq

/-- One directory entry as the embedded code observes it. -/
structure DirEntry where
  fileName : OsName
  isDirectory : Except IoError Bool
  metadataLen : Except IoError Nat
deriving DecidableEq

/-- Message of the panic raised by `.into_string().expect(..)` on a
non-UTF-8 file name. -/
def utf8ExpectMsg : String := "Is valid UTF-8 string."

/-- Loop body of `get_resource_info`: `p?` propagates iteration errors,
`into_string().expect` panics on non-UTF-8 names, entries named
`resource<suffix>` (strictly longer than `"resource"`) are kept with their
metadata length, and a metadata failure propagates. -/
def get_resource_info_loop :
    List (Except IoError DirEntry) → List (List Char × Nat) →
    Outcome (List (List Char × Nat))
  | [], acc => .ok acc
  | .error e :: _, _ => .err (.ioFailed e)
  | .ok entry :: rest, acc =>
    match entry.fileName with
    | .nonUtf8 => .panicked utf8ExpectMsg
    | .utf8 file_name =>
      if ("resource".data).isPrefixOf file_name &&
          decide (("resource".data).length < file_name.length) then
        match entry.metadataLen with
        | .error e => .err (.ioFailed e)
        | .ok len => get_resource_info_loop rest (acc ++ [(file_name, len)])
      else get_resource_info_loop rest acc

/-- `UioDevice::get_resource_info`. -/
def get_resource_info (listing : Except IoError (List (Except IoError DirEntry))) :
    Outcome (List (List Char × Nat)) :=
  match listing with
  | .error e => .err (.ioFailed e)
  | .ok entries => get_resource_info_loop entries []

/-- Loop body of the deprecated `get_map_info`: same shape as
`get_resource_info_loop`, pattern `"map"`, collecting names only (no
metadata lookup). -/
def get_map_info_loop :
    List (Except IoError DirEntry) → List (List Char) → Outcome (List (List Char))
  | [], acc => .ok acc
  | .error e :: _, _ => .err (.ioFailed e)
  | .ok entry :: rest, acc =>
    match entry.fileName with
    | .nonUtf8 => .panicked utf8ExpectMsg
    | .utf8 file_name =>
      if ("map".data).isPrefixOf file_name &&
          decide (("map".data).length < file_name.length) then
        get_map_info_loop rest (acc ++ [file_name])
      else get_map_info_loop rest acc

/-- `UioDevice::get_map_info` (deprecated in the source). -/
def get_map_info (listing : Except IoError (List (Except IoError DirEntry))) :
    Outcome (List (List Char)) :=
  match listing with
  | .error e => .err (.ioFailed e)
  | .ok entries => get_map_info_loop entries []

/-! ### Mapping-info enumeration -/

/-- `str::trim_start_matches("map")`: remove every leading occurrence of
`"map"`. -/
def trimStartMap : List Char → List Char
  | 'm' :: 'a' :: 'p' :: rest => trimStartMap rest
  | s => s

/-- `struct MappingInfo { index, addr, len, name }`. -/
structure MappingInfo where
  index : Nat
  addr : Nat
  len : Nat
  name : List Char
deriving DecidableEq

/-- The part of sysfs that `get_mapping_info` consults: the `maps/` directory
listing and, per mapping index, the raw contents of the `addr`, `size` and
`name` attribute files. -/
structure MapsFs where
  listing : Except IoError (List (Except IoError DirEntry))
  addrFile : Nat → Except IoError (List Char)
  sizeFile : Nat → Except IoError (List Char)
  nameFile : Nat → Except IoError (List Char)

/-- Loop body of `get_mapping_info`.  A non-UTF-8 name, a non-directory or
non-`map`-prefixed entry, or an unparseable index breaks the loop (partial
`ok`); an iteration error (`p?`) or any error from `map_addr`/`map_name`/
`map_size` propagates (`?`), and their panics propagate too. -/
def get_mapping_info_loop (fs : MapsFs) :
    List (Except IoError DirEntry) → List MappingInfo → Outcome (List MappingInfo)
  | [], acc => .ok acc
  | .error e :: _, _ => .err (.ioFailed e)
  | .ok entry :: rest, acc =>
    match entry.fileName with
    | .nonUtf8 => .ok acc
    | .utf8 dir_name =>
      match entry.isDirectory with
      | .error e => .err (.ioFailed e)
      | .ok isDir =>
        if !(isDir && ("map".data).isPrefixOf dir_name) then .ok acc
        else
          match fromStrRadix 10 usizeBound (trimStartMap dir_name) with
          | none => .ok acc
          | some index =>
            match map_addr (fs.addrFile index) with
            | .panicked m => .panicked m
            | .err e => .err e
            | .ok addr =>
              match map_name (fs.nameFile index) with
              | .error e => .err e
              | .ok name =>
                match map_size (fs.sizeFile index) with
                | .panicked m => .panicked m
                | .err e => .err e
                | .ok len =>
                  get_mapping_info_loop fs rest (acc ++ [⟨index, addr, len, name⟩])

/-- `UioDevice::get_mapping_info`. -/
def get_mapping_info (fs : MapsFs) : Outcome (List MappingInfo) :=
  match fs.listing with
  | .error e => .err (.ioFailed e)
  | .ok entries => get_mapping_info_loop fs entries []

/-! ### The mapping engine -/

/-- The argument vector of one `nix::sys::mman::mmap` call. -/
structure MmapRequest where
  length : Nat
  protRead : Bool
  protWrite : Bool
  mapShared : Bool
  fd : Nat
  offset : Nat
deriving DecidableEq

/-- Fold the kernel's `mmap` answer into the function's result
(`Err(e) => Err(UioError::from(e))`). -/
def outcomeOfMmap (r : Except Nat Nat) : Outcome Nat :=
  match r with
  | .ok a => .ok a
  | .error errno => .err (.mapFailed errno)

/-- `UioDevice::map_mapping`: offset is `mapping * PAGESIZE`, the length is
read from the `size` attribute (`map_size`), a zero length is rejected with
`UioError::Size` (`NonZeroUsize::new(..).ok_or(..)`), and otherwise `mmap` is
called with `PROT_READ | PROT_WRITE`, `MAP_SHARED`, the device file's fd and
the computed offset.  `kernel` is the kernel's answer to an `mmap` request. -/
def map_mapping (sizeRaw : Except IoError (List Char)) (devFd : Nat)
    (kernel : MmapRequest → Except Nat Nat) (mapping : Nat) : Outcome Nat :=
  let offset := mapping * PAGESIZE
  match map_size sizeRaw with
  | .panicked m => .panicked m
  | .err e => .err e
  | .ok sz =>
    if sz = 0 then .err .sizeInvalid
    else outcomeOfMmap (kernel ⟨sz, true, true, true, devFd, offset⟩)

/-! ### Device handle lifecycle

The advisory-lock state of the device file is a `Bool` (`true` = some holder
owns the exclusive lock).  `try_new` threads it explicitly; the success case
returns the constructed handle together with the lock state at return. -/

/-- `struct UioDevice { uio_num, devfile }` (the file is its descriptor). -/
structure UioDevice where
  uio_num : Nat
  devfd : Nat
deriving DecidableEq

/-- `UioDevice::try_new`: open `/dev/uio<n>` read/write (`openRes` is the
open's answer), then `try_lock_exclusive`, which fails immediately with
`EWOULDBLOCK` when the lock is already held and otherwise acquires it before
the constructor returns. -/
def try_new (openRes : Except IoError Nat) (locked : Bool) (uio_num : Nat) :
    Except IoError (UioDevice × Bool) :=
  match openRes with
  | .error e => .error e
  | .ok fd =>
    if locked then .error .wouldBlock
    else .ok (⟨uio_num, fd⟩, true)

/-- Message of the panic raised by the `expect` in `Drop for UioDevice`. -/
def lockReleaseMsg : String := "Failed to release lock on /dev/uio* device"

/-- `impl Drop for UioDevice`: call `unlock` on the device file and `expect`
its result; on success the lock state becomes `false` (released). -/
def dropDevice (unlockRes : Except IoError Unit) : Outcome Bool :=
  match unlockRes with
  | .error _ => .panicked lockReleaseMsg
  | .ok _ => .ok false

/-! ### Spec-side parsing definitions

The spec states a parsing contract for attribute text.  The following
definitions are written from the spec's words (not from the code) so that the
code's `from_str_radix` pipeline can be compared against them. -/

/-- One accumulation step of the digit fold. -/
def digitStep (radix : Nat) (a : Nat) (c : Char) : Nat :=
  a * radix + (toDigit radix c).getD 0

/-- Spec-side: every character of `s` is a digit for `radix`. -/
def allRadixDigits (radix : Nat) (s : List Char) : Bool :=
  s.all fun c => (toDigit radix c).isSome

/-- Spec-side: the numeric value of a digit string in base `radix`. -/
def radixValue (radix : Nat) (s : List Char) : Nat :=
  s.foldl (digitStep radix) 0

/-- The digit portion of an unsigned integer literal: an optional leading
`+` sign is dropped. -/
def specDigits (s : List Char) : List Char :=
  if s.head? = some '+' then s.tail else s

/-- Spec-side parser for an unsigned integer attribute value in base `radix`
with values below `bound`: no leading `-`, a non-empty digit string after the
optional `+`, all characters valid digits, value within range. -/
def specParseUnsigned (radix bound : Nat) (s : List Char) : Option Nat :=
  if s.head? = some '-' then none
  else if specDigits s = [] then none
  else if allRadixDigits radix (specDigits s) &&
      decide (radixValue radix (specDigits s) < bound) then
    some (radixValue radix (specDigits s))
  else none

/-! ### Concrete inputs used by the claim theorems -/

/-- A `maps/` directory holding a single well-formed `map0` subdirectory whose
`addr` attribute file is missing (`NotFound`), while `size` and `name` are
readable.  This is the spec's truncation scenario for `get_mapping_info`. -/
def mapsFsMissingAddr : MapsFs where
  listing := .ok [.ok ⟨.utf8 "map0".data, .ok true, .ok 0⟩]
  addrFile := fun _ => .error .notFound
  sizeFile := fun _ => .ok "0x1000".data
  nameFile := fun _ => .ok "ctrl".data

end Uio

namespace Uio

/-! ## Claim theorems -/

/-- C1: the claim says that when an entry's `addr`, `size` or `name`
attribute cannot be read, `get_mapping_info` returns `Ok` with the entries
gathered strictly before it and never surfaces an error.  On the concrete
scenario from the spec — a well-formed `map0` entry whose `addr` file is
missing — the code instead propagates the I/O error to the caller (the `?`
on `map_addr`), so the call is an error, not a truncated `Ok`. -/
theorem get_mapping_info_attr_failure_propagates :
    get_mapping_info mapsFsMissingAddr = .err (.ioFailed .notFound) := by decide

/-- C2 counterexample: an underlying write that reports only 2 of the 4
bytes written is accepted silently — `irq_enable` returns `Ok(())`, where the
claim demands an I/O error for every short write. -/
theorem irq_enable_short_write_accepted :
    irq_enable (fun _ => .ok 2) = .ok () ∧ (2 : Nat) < 4 := by
  exact ⟨rfl, by decide⟩

/-- C2 (amended): `irq_enable` (resp. `irq_disable`) writes the 4-byte
little-endian representation of `1` (resp. `0`) to the device control file;
it returns an error exactly when the underlying write call itself fails, and
returns success for any reported byte count — the count is discarded, so a
short write is a silent success. -/
theorem irq_enable_disable_write_contract
    (writeSys : List Nat → Except IoError Nat) (e : IoError) (n : Nat) :
    (writeSys (u32ToBytes 1) = .ok n → irq_enable writeSys = .ok ()) ∧
    (writeSys (u32ToBytes 1) = .error e → irq_enable writeSys = .error e) ∧
    (writeSys (u32ToBytes 0) = .ok n → irq_disable writeSys = .ok ()) ∧
    (writeSys (u32ToBytes 0) = .error e → irq_disable writeSys = .error e) ∧
    u32ToBytes 1 = [1, 0, 0, 0] ∧ u32ToBytes 0 = [0, 0, 0, 0] := by
  refine ⟨?_, ?_, ?_, ?_, by decide, by decide⟩ <;>
    (intro h; simp [irq_enable, irq_disable, h])

/-- Witness for the C2 theorem at concrete write syscalls. -/
theorem irq_enable_disable_write_contract_witness :
    irq_enable (fun _ => .ok 4) = .ok () ∧
    irq_disable (fun _ => .error .notFound) = .error .notFound :=
  ⟨(irq_enable_disable_write_contract (fun _ => .ok 4) .notFound 4).1 rfl,
   (irq_enable_disable_write_contract (fun _ => .error .notFound) .notFound 4).2.2.2.1 rfl⟩

/-- C3 counterexample: a read that delivers a single byte `7` makes
`irq_wait` return `Ok(7)` — a success built from a partially filled buffer,
where the claim demands an I/O error for every read of fewer than 4 bytes. -/
theorem irq_wait_short_read_accepted :
    irq_wait (.ok [7]) = .ok 7 ∧ ([(7 : Nat)]).length < 4 := by
  exact ⟨rfl, by decide⟩

/-- C3 (amended): `irq_wait` reads into a zero-initialised 4-byte buffer and
returns an I/O error exactly when the read call itself fails; every
successful read — of any byte count, including fewer than 4 bytes — yields
`Ok` with the buffer reinterpreted as a little-endian `u32`, the unread
bytes remaining zero (spelled out for reads of 0, 1, 2, 3 and 4 bytes). -/
theorem irq_wait_read_contract
    (readSys : Except IoError (List Nat)) (e : IoError) (data : List Nat) :
    (irq_wait readSys = .error e ↔ readSys = .error e) ∧
    (readSys = .ok data → irq_wait readSys
      = .ok (u32OfBytes (data.take 4 ++ List.replicate (4 - (data.take 4).length) 0))) ∧
    (readSys = .ok [] → irq_wait readSys = .ok 0) ∧
    (∀ b0 : Nat, readSys = .ok [b0] → irq_wait readSys = .ok b0) ∧
    (∀ b0 b1 : Nat, readSys = .ok [b0, b1] →
      irq_wait readSys = .ok (b0 + b1 * 256)) ∧
    (∀ b0 b1 b2 : Nat, readSys = .ok [b0, b1, b2] →
      irq_wait readSys = .ok (b0 + b1 * 256 + b2 * 256 ^ 2)) ∧
    (∀ b0 b1 b2 b3 : Nat, readSys = .ok [b0, b1, b2, b3] →
      irq_wait readSys = .ok (b0 + b1 * 256 + b2 * 256 ^ 2 + b3 * 256 ^ 3)) := by
  refine ⟨⟨?_, ?_⟩, ?_, ?_, ?_, ?_, ?_, ?_⟩
  · intro h
    cases hr : readSys with
    | error e2 =>
      rw [hr] at h
      simp only [irq_wait] at h
      cases h
      rfl
    | ok d =>
      rw [hr] at h
      simp [irq_wait] at h
  · intro h; simp [irq_wait, h]
  · intro h; simp [irq_wait, h]
  · intro h; simp [irq_wait, h, u32OfBytes, List.take, List.replicate]
  · intro b0 h; simp [irq_wait, h, u32OfBytes, List.take, List.replicate]
  · intro b0 b1 h; simp [irq_wait, h, u32OfBytes, List.take, List.replicate]
  · intro b0 b1 b2 h; simp [irq_wait, h, u32OfBytes, List.take, List.replicate]
  · intro b0 b1 b2 b3 h; simp [irq_wait, h, u32OfBytes, List.take, List.replicate]

/-- Witness for the C3 theorem at concrete reads of 4, 2 and 0 bytes and a
failing read. -/
theorem irq_wait_read_contract_witness :
    irq_wait (.ok [1, 2, 3, 4]) = .ok (1 + 2 * 256 + 3 * 256 ^ 2 + 4 * 256 ^ 3) ∧
    irq_wait (.ok [5, 6]) = .ok (5 + 6 * 256) ∧
    irq_wait (.ok []) = .ok 0 ∧
    irq_wait (.error .notFound) = .error .notFound :=
  ⟨(irq_wait_read_contract (.ok [1, 2, 3, 4]) .notFound []).2.2.2.2.2.2 1 2 3 4 rfl,
   (irq_wait_read_contract (.ok [5, 6]) .notFound []).2.2.2.2.1 5 6 rfl,
   (irq_wait_read_contract (.ok []) .notFound []).2.2.1 rfl,
   ((irq_wait_read_contract (.error .notFound) .notFound []).1).mpr rfl⟩

/-- C4: when the `size` attribute of mapping `i` is readable and resolves to
`sz`, `map_mapping i` fails with `UioError::Size` exactly when `sz = 0`; for
non-zero `sz` the result is whatever the attempted `mmap` request returns
(success or a `Map`-wrapped kernel error), never `Size`. -/
theorem map_mapping_sizeInvalid_iff_zero
    (sizeRaw : Except IoError (List Char)) (devFd : Nat)
    (kernel : MmapRequest → Except Nat Nat) (i sz : Nat)
    (h : map_size sizeRaw = .ok sz) :
    (map_mapping sizeRaw devFd kernel i = .err .sizeInvalid ↔ sz = 0) ∧
    (sz ≠ 0 → map_mapping sizeRaw devFd kernel i =
      outcomeOfMmap (kernel ⟨sz, true, true, true, devFd, i * PAGESIZE⟩)) := by
  have hm : map_mapping sizeRaw devFd kernel i =
      (if sz = 0 then .err .sizeInvalid
       else outcomeOfMmap (kernel ⟨sz, true, true, true, devFd, i * PAGESIZE⟩)) := by
    simp [map_mapping, h]
  by_cases hz : sz = 0
  · subst hz; simp [hm]
  · rw [hm, if_neg hz]
    refine ⟨⟨fun hc => ?_, fun hc => absurd hc hz⟩, fun _ => rfl⟩
    cases hk : kernel ⟨sz, true, true, true, devFd, i * PAGESIZE⟩ <;>
      simp [outcomeOfMmap, hk] at hc

/-- Witness for the C4 theorem: a zero `size` attribute (`"0x0"`) makes
`map_mapping` fail with `Size`. -/
theorem map_mapping_sizeInvalid_iff_zero_witness :
    map_mapping (.ok "0x0".data) 3 (fun _ => .ok 77) 2 = .err .sizeInvalid :=
  (map_mapping_sizeInvalid_iff_zero (.ok "0x0".data) 3 (fun _ => .ok 77) 2 0
    (by decide)).1.mpr rfl

/-- C5: for a readable, non-zero `size` attribute resolving to `sz`,
`map_mapping i` issues exactly one `mmap` request, with length `sz`,
protection `PROT_READ | PROT_WRITE`, flags `MAP_SHARED`, the already-open
device file descriptor, and file offset `i * 4096` (the fixed constant). -/
theorem map_mapping_mmap_arguments
    (sizeRaw : Except IoError (List Char)) (devFd : Nat)
    (kernel : MmapRequest → Except Nat Nat) (i sz : Nat)
    (h : map_size sizeRaw = .ok sz) (hnz : sz ≠ 0) :
    map_mapping sizeRaw devFd kernel i =
      outcomeOfMmap (kernel ⟨sz, true, true, true, devFd, i * 4096⟩) := by
  simp [map_mapping, h, hnz, PAGESIZE]

/-- Witness for the C5 theorem: `size = "0x1000"` and index 3 request length
4096 at offset 12288 on the device fd 5. -/
theorem map_mapping_mmap_arguments_witness :
    map_mapping (.ok "0x1000".data) 5 (fun r => .ok r.offset) 3 =
      outcomeOfMmap ((fun r : MmapRequest => .ok r.offset)
        ⟨4096, true, true, true, 5, 3 * 4096⟩) :=
  map_mapping_mmap_arguments (.ok "0x1000".data) 5 (fun r => .ok r.offset) 3 4096
    (by decide) (by decide)

/-- C7: a successful `try_new` can only happen when the advisory lock was
free, and it returns with the lock held (acquired before the constructor
returns); when another holder owns the lock, `try_new` fails immediately with
the would-block error instead of waiting; an open failure is surfaced and no
lock is taken; `Drop` releases the lock (attempting the release exactly once,
panicking — not skipping — if the unlock call fails). -/
theorem device_lock_lifecycle (openFd n : Nat) (lk : Bool) :
    (∀ d lk2, try_new (.ok openFd) lk n = .ok (d, lk2) →
      lk = false ∧ lk2 = true ∧ d = ⟨n, openFd⟩) ∧
    (lk = true → try_new (.ok openFd) lk n = .error .wouldBlock) ∧
    (∀ e : IoError, try_new (.error e) lk n = .error e) ∧
    dropDevice (.ok ()) = .ok false ∧
    (∀ e : IoError, dropDevice (.error e) = .panicked lockReleaseMsg) := by
  refine ⟨?_, ?_, fun e => rfl, rfl, fun e => rfl⟩
  · intro d lk2 hok
    cases lk with
    | true => simp [try_new] at hok
    | false =>
      simp [try_new] at hok
      exact ⟨rfl, hok.2, hok.1.symm⟩
  · intro hlk; subst hlk; rfl

/-- Witness for the C7 theorem: a free lock is acquired, a held lock gives
`WouldBlock`. -/
theorem device_lock_lifecycle_witness :
    ((false : Bool) = false ∧ (true : Bool) = true ∧
      (⟨0, 3⟩ : UioDevice) = ⟨0, 3⟩) ∧
    try_new (.ok 3) true 0 = .error .wouldBlock :=
  ⟨(device_lock_lifecycle 3 0 false).1 ⟨0, 3⟩ true rfl,
   (device_lock_lifecycle 3 0 true).2.1 rfl⟩

/-- C10: whenever the trimmed text of an `addr` or `size` attribute is
shorter than two bytes, `map_addr` and `map_size` panic on the byte slice
`&buffer[2..]` instead of returning `ParseFailed`; and the two stripped bytes
are never checked to be `0x` — the malformed prefix `0y` in `"0y1A"` is
silently accepted and the tail parses as hex 26. -/
theorem map_attr_short_text_panics (raw : List Char)
    (h : (rustTrim raw).length < 2) :
    map_size (.ok raw) = .panicked sliceOobMsg ∧
    map_addr (.ok raw) = .panicked sliceOobMsg ∧
    map_size (.ok "0y1A".data) = .ok 26 ∧
    map_addr (.ok "0y1A".data) = .ok 26 := by
  refine ⟨?_, ?_, by decide, by decide⟩ <;> simp [map_size, map_addr, read_file, h]

/-- Witness for the C10 theorem: the one-character attribute text `"7"`. -/
theorem map_attr_short_text_panics_witness :
    map_size (.ok ['7']) = .panicked sliceOobMsg ∧
    map_addr (.ok ['7']) = .panicked sliceOobMsg ∧
    map_size (.ok "0y1A".data) = .ok 26 ∧
    map_addr (.ok "0y1A".data) = .ok 26 :=
  map_attr_short_text_panics ['7'] (by decide)

end Uio

namespace Uio

/-! ## Characterisation of `from_str_radix` against the spec-side parser -/

/-- With a positive radix the digit fold never decreases. -/
theorem le_foldl_digitStep (radix : Nat) (hr : 1 ≤ radix) (cs : List Char) :
    ∀ acc : Nat, acc ≤ cs.foldl (digitStep radix) acc := by
  induction cs with
  | nil => intro acc; exact Nat.le_refl acc
  | cons c cs ih =>
    intro acc
    have h1 : acc ≤ digitStep radix acc c := by
      have h2 : acc ≤ acc * radix := by
        calc acc = acc * 1 := (Nat.mul_one acc).symm
          _ ≤ acc * radix := Nat.mul_le_mul_left acc hr
      exact Nat.le_trans h2 (Nat.le_add_right _ _)
    calc acc ≤ digitStep radix acc c := h1
      _ ≤ cs.foldl (digitStep radix) (digitStep radix acc c) := ih _
      _ = (c :: cs).foldl (digitStep radix) acc := by simp [List.foldl_cons]

/-- Soundness: a successful digit fold means every character was a valid
digit and the result is the fold's value. -/
theorem parseDigitsAux_sound (radix bound : Nat) (cs : List Char) :
    ∀ acc v : Nat, parseDigitsAux radix bound cs acc = some v →
      allRadixDigits radix cs = true ∧ v = cs.foldl (digitStep radix) acc := by
  induction cs with
  | nil =>
    intro acc v h
    simp only [parseDigitsAux, Option.some.injEq] at h
    subst h
    exact ⟨rfl, rfl⟩
  | cons c cs ih =>
    intro acc v h
    unfold parseDigitsAux at h
    cases hd : toDigit radix c with
    | none => simp [hd] at h
    | some d =>
      simp only [hd] at h
      by_cases hb : acc * radix + d < bound
      · rw [if_pos hb] at h
        obtain ⟨h1, h2⟩ := ih _ _ h
        constructor
        · simp only [allRadixDigits, List.all_cons, Bool.and_eq_true]
          exact ⟨by simp [hd], by simpa [allRadixDigits] using h1⟩
        · have hstep : digitStep radix acc c = acc * radix + d := by
            simp [digitStep, hd]
          simp only [List.foldl_cons, hstep]
          exact h2
      · rw [if_neg hb] at h; simp at h

/-- A successful digit fold over a non-empty string yields a value below the
bound. -/
theorem parseDigitsAux_lt_bound (radix bound : Nat) (cs : List Char) :
    ∀ acc v : Nat, cs ≠ [] → parseDigitsAux radix bound cs acc = some v →
      v < bound := by
  induction cs with
  | nil => intro acc v hne _; exact absurd rfl hne
  | cons c cs ih =>
    intro acc v _ h
    unfold parseDigitsAux at h
    cases hd : toDigit radix c with
    | none => simp [hd] at h
    | some d =>
      simp only [hd] at h
      by_cases hb : acc * radix + d < bound
      · rw [if_pos hb] at h
        by_cases hcs : cs = []
        · subst hcs
          simp only [parseDigitsAux, Option.some.injEq] at h
          omega
        · exact ih _ _ hcs h
      · rw [if_neg hb] at h; simp at h

/-- Completeness: a string of valid digits whose value is within the bound is
accepted, with every intermediate overflow check passing. -/
theorem parseDigitsAux_complete (radix bound : Nat) (hr : 1 ≤ radix)
    (cs : List Char) :
    ∀ acc : Nat, allRadixDigits radix cs = true →
      cs.foldl (digitStep radix) acc < bound →
      parseDigitsAux radix bound cs acc = some (cs.foldl (digitStep radix) acc) := by
  induction cs with
  | nil => intro acc _ _; rfl
  | cons c cs ih =>
    intro acc hall hlt
    simp only [allRadixDigits, List.all_cons, Bool.and_eq_true] at hall
    obtain ⟨hc, hcs⟩ := hall
    obtain ⟨d, hd⟩ := Option.isSome_iff_exists.mp hc
    have hstep : digitStep radix acc c = acc * radix + d := by simp [digitStep, hd]
    have hfold : (c :: cs).foldl (digitStep radix) acc
        = cs.foldl (digitStep radix) (acc * radix + d) := by
      simp only [List.foldl_cons, hstep]
    have hle : acc * radix + d ≤ cs.foldl (digitStep radix) (acc * radix + d) :=
      le_foldl_digitStep radix hr cs _
    have hb : acc * radix + d < bound := by rw [hfold] at hlt; omega
    unfold parseDigitsAux
    simp only [hd, if_pos hb]
    rw [hfold]
    exact ih _ (by simpa [allRadixDigits] using hcs) (hfold ▸ hlt)

/-- The digit fold on a non-empty string is exactly the spec-side
digits-and-bound check. -/
theorem parseDigitsAux_eq_checked (radix bound : Nat) (hr : 1 ≤ radix)
    (cs : List Char) (hne : cs ≠ []) :
    parseDigitsAux radix bound cs 0 =
      if allRadixDigits radix cs && decide (radixValue radix cs < bound)
      then some (radixValue radix cs) else none := by
  by_cases hall : allRadixDigits radix cs = true
  · by_cases hlt : radixValue radix cs < bound
    · rw [if_pos (by simp [hall, hlt])]
      simpa [radixValue] using
        parseDigitsAux_complete radix bound hr cs 0 hall (by simpa [radixValue] using hlt)
    · rw [if_neg (by simp [hlt])]
      cases hp : parseDigitsAux radix bound cs 0 with
      | none => rfl
      | some v =>
        exfalso
        obtain ⟨_, hv⟩ := parseDigitsAux_sound radix bound cs 0 v hp
        have hvb := parseDigitsAux_lt_bound radix bound cs 0 v hne hp
        simp only [radixValue] at hlt
        exact hlt (hv ▸ hvb)
  · rw [if_neg (by simp [hall])]
    cases hp : parseDigitsAux radix bound cs 0 with
    | none => rfl
    | some v =>
      exfalso
      obtain ⟨ha, _⟩ := parseDigitsAux_sound radix bound cs 0 v hp
      exact hall ha

/-- The code's `from_str_radix` agrees with the spec-side unsigned-integer
parser on every input. -/
theorem fromStrRadix_eq_specParse (radix bound : Nat) (hr : 1 ≤ radix)
    (s : List Char) :
    fromStrRadix radix bound s = specParseUnsigned radix bound s := by
  cases s with
  | nil => rfl
  | cons c rest =>
    by_cases hp : c = '+'
    · subst hp
      cases rest with
      | nil => rfl
      | cons c2 rs =>
        rw [show fromStrRadix radix bound ('+' :: c2 :: rs)
            = parseDigitsAux radix bound (c2 :: rs) 0 from rfl]
        rw [parseDigitsAux_eq_checked radix bound hr (c2 :: rs) (by simp)]
        simp [specParseUnsigned, specDigits]
    · by_cases hm : c = '-'
      · subst hm; rfl
      · have h1 : fromStrRadix radix bound (c :: rest)
            = parseDigitsAux radix bound (c :: rest) 0 := by
          simp [fromStrRadix, hp, hm]
        rw [h1, parseDigitsAux_eq_checked radix bound hr (c :: rest) (by simp)]
        have h2 : specDigits (c :: rest) = c :: rest := by simp [specDigits, hp]
        simp [specParseUnsigned, h2, hm]

end Uio

namespace Uio

/-- C6 counterexample: `"ffff"` carries no `0x` prefix, yet `map_size`
accepts it — the first two bytes are stripped blindly and the tail `"ff"`
hex-parses to 255 — where the claim demands `ParseFailed` for any input not
carrying the mandatory `0x` prefix. -/
theorem map_size_accepts_missing_hex_marker :
    map_size (.ok "ffff".data) = .ok 255 ∧ ("ffff".data).take 2 ≠ "0x".data := by
  exact ⟨by decide, by decide⟩

/-- C6 (amended): on trimmed text of at least two bytes, `map_addr` and
`map_size` strip the first two bytes unconditionally — never checking that
they are `0x` — and succeed exactly when the remaining text is a valid
unsigned 64-bit hex literal (optional `+`, non-empty digits, value in range),
returning its value; `get_event_count` succeeds exactly when the trimmed text
is a valid unsigned 32-bit decimal literal in the same sense, and fails with
`ParseFailed` exactly otherwise. -/
theorem attribute_parse_contract (raw : List Char) (v : Nat)
    (h2 : 2 ≤ (rustTrim raw).length) :
    (map_size (.ok raw) = .ok v ↔
      specParseUnsigned 16 usizeBound ((rustTrim raw).drop 2) = some v) ∧
    (map_addr (.ok raw) = .ok v ↔
      specParseUnsigned 16 usizeBound ((rustTrim raw).drop 2) = some v) ∧
    (get_event_count (.ok raw) = .ok v ↔
      specParseUnsigned 10 u32Bound (rustTrim raw) = some v) ∧
    (get_event_count (.ok raw) = .error .parseFailed ↔
      specParseUnsigned 10 u32Bound (rustTrim raw) = none) := by
  have h16 := fromStrRadix_eq_specParse 16 usizeBound (by norm_num) ((rustTrim raw).drop 2)
  have h10 := fromStrRadix_eq_specParse 10 u32Bound (by norm_num) (rustTrim raw)
  have hns : ¬ (rustTrim raw).length < 2 := by omega
  refine ⟨?_, ?_, ?_, ?_⟩
  · rw [show map_size (.ok raw)
        = (match fromStrRadix 16 usizeBound ((rustTrim raw).drop 2) with
           | some w => Outcome.ok w
           | none => Outcome.err .parseFailed) from by
      simp [map_size, read_file, hns]]
    rw [h16]
    cases specParseUnsigned 16 usizeBound ((rustTrim raw).drop 2) <;> simp
  · rw [show map_addr (.ok raw)
        = (match fromStrRadix 16 usizeBound ((rustTrim raw).drop 2) with
           | some w => Outcome.ok w
           | none => Outcome.err .parseFailed) from by
      simp [map_addr, read_file, hns]]
    rw [h16]
    cases specParseUnsigned 16 usizeBound ((rustTrim raw).drop 2) <;> simp
  · rw [show get_event_count (.ok raw)
        = (match fromStrRadix 10 u32Bound (rustTrim raw) with
           | some w => Except.ok w
           | none => Except.error UioError.parseFailed) from by
      simp [get_event_count, read_file]]
    rw [h10]
    cases specParseUnsigned 10 u32Bound (rustTrim raw) <;> simp
  · rw [show get_event_count (.ok raw)
        = (match fromStrRadix 10 u32Bound (rustTrim raw) with
           | some w => Except.ok w
           | none => Except.error UioError.parseFailed) from by
      simp [get_event_count, read_file]]
    rw [h10]
    cases specParseUnsigned 10 u32Bound (rustTrim raw) <;> simp

/-- Witness for the C6 theorem: `"0x1000"` resolves to 4096 and `"42"`
event-counts to 42. -/
theorem attribute_parse_contract_witness :
    map_size (.ok "0x1000".data) = .ok 4096 ∧
    get_event_count (.ok "42".data) = .ok 42 :=
  ⟨((attribute_parse_contract "0x1000".data 4096 (by decide)).1).mpr (by decide),
   ((attribute_parse_contract "42".data 42 (by decide)).2.2.1).mpr (by decide)⟩

/-! ## Directory-walk lemmas -/

/-- Reaching a non-UTF-8 entry after well-formed entries makes the
resource-enumeration loop panic on `expect`. -/
theorem get_resource_info_loop_panicked (bad : DirEntry)
    (hbad : bad.fileName = .nonUtf8) (rest : List (Except IoError DirEntry)) :
    ∀ (pre : List DirEntry) (acc : List (List Char × Nat)),
      (∀ d ∈ pre, (∃ s, d.fileName = .utf8 s) ∧ (∃ n, d.metadataLen = .ok n)) →
      get_resource_info_loop (pre.map Except.ok ++ Except.ok bad :: rest) acc
        = .panicked utf8ExpectMsg := by
  intro pre
  induction pre with
  | nil =>
    intro acc _
    simp [get_resource_info_loop, hbad]
  | cons d pre ih =>
    intro acc hpre
    obtain ⟨⟨s, hs⟩, ⟨n, hn⟩⟩ := hpre d (by simp)
    have hrest := fun d2 hd2 => hpre d2 (List.mem_cons_of_mem _ hd2)
    simp only [List.map_cons, List.cons_append, get_resource_info_loop, hs, hn]
    split
    · exact ih _ hrest
    · exact ih _ hrest

/-- Same for the deprecated map-name enumeration loop. -/
theorem get_map_info_loop_panicked (bad : DirEntry)
    (hbad : bad.fileName = .nonUtf8) (rest : List (Except IoError DirEntry)) :
    ∀ (pre : List DirEntry) (acc : List (List Char)),
      (∀ d ∈ pre, ∃ s, d.fileName = .utf8 s) →
      get_map_info_loop (pre.map Except.ok ++ Except.ok bad :: rest) acc
        = .panicked utf8ExpectMsg := by
  intro pre
  induction pre with
  | nil =>
    intro acc _
    simp [get_map_info_loop, hbad]
  | cons d pre ih =>
    intro acc hpre
    obtain ⟨s, hs⟩ := hpre d (by simp)
    have hrest := fun d2 hd2 => hpre d2 (List.mem_cons_of_mem _ hd2)
    simp only [List.map_cons, List.cons_append, get_map_info_loop, hs]
    split
    · exact ih _ hrest
    · exact ih _ hrest

/-- A matching `resource*` entry whose metadata lookup fails aborts the
resource-enumeration loop with that I/O error. -/
theorem get_resource_info_loop_metadata_error (bad : DirEntry) (s : List Char)
    (e2 : IoError) (hname : bad.fileName = .utf8 s)
    (hm : (("resource".data).isPrefixOf s &&
      decide (("resource".data).length < s.length)) = true)
    (hmeta : bad.metadataLen = .error e2) (rest : List (Except IoError DirEntry)) :
    ∀ (pre : List DirEntry) (acc : List (List Char × Nat)),
      (∀ d ∈ pre, (∃ s2, d.fileName = .utf8 s2) ∧ (∃ n, d.metadataLen = .ok n)) →
      get_resource_info_loop (pre.map Except.ok ++ Except.ok bad :: rest) acc
        = .err (.ioFailed e2) := by
  intro pre
  induction pre with
  | nil =>
    intro acc _
    simp only [List.map_nil, List.nil_append, get_resource_info_loop, hname, hmeta]
    rw [if_pos hm]
  | cons d pre ih =>
    intro acc hpre
    obtain ⟨⟨s2, hs2⟩, ⟨n, hn⟩⟩ := hpre d (by simp)
    have hrest := fun d2 hd2 => hpre d2 (List.mem_cons_of_mem _ hd2)
    simp only [List.map_cons, List.cons_append, get_resource_info_loop, hs2, hn]
    split
    · exact ih _ hrest
    · exact ih _ hrest

/-- C8: `get_resource_info` surfaces a directory-read failure as an `Io`
error, and a metadata-lookup failure on any matching `resource<N>` entry
aborts the whole call with that `Io` error instead of skipping the entry —
no partial result list is returned. -/
theorem get_resource_info_error_propagation
    (e e2 : IoError) (pre : List DirEntry) (bad : DirEntry) (s : List Char)
    (rest : List (Except IoError DirEntry))
    (hpre : ∀ d ∈ pre, (∃ s2, d.fileName = .utf8 s2) ∧ (∃ n, d.metadataLen = .ok n))
    (hname : bad.fileName = .utf8 s)
    (hm : (("resource".data).isPrefixOf s &&
      decide (("resource".data).length < s.length)) = true)
    (hmeta : bad.metadataLen = .error e2) :
    get_resource_info (.error e) = .err (.ioFailed e) ∧
    get_resource_info (.ok (pre.map Except.ok ++ Except.ok bad :: rest))
      = .err (.ioFailed e2) := by
  refine ⟨rfl, ?_⟩
  exact get_resource_info_loop_metadata_error bad s e2 hname hm hmeta rest pre [] hpre

/-- Witness for the C8 theorem: an unreadable directory, and a listing whose
single entry `resource1` has a failing metadata lookup. -/
theorem get_resource_info_error_propagation_witness :
    get_resource_info (.error .notFound) = .err (.ioFailed .notFound) ∧
    get_resource_info (.ok (([] : List DirEntry).map Except.ok ++
      Except.ok (⟨OsName.utf8 "resource1".data, Except.ok false,
        Except.error IoError.permissionDenied⟩ : DirEntry) :: []))
      = .err (.ioFailed .permissionDenied) :=
  get_resource_info_error_propagation .notFound .permissionDenied []
    ⟨OsName.utf8 "resource1".data, Except.ok false,
      Except.error IoError.permissionDenied⟩ "resource1".data []
    (by intro d hd; simp at hd) rfl (by decide) rfl

/-- C9: when the directory walk reaches an entry whose file name is not valid
UTF-8 (all earlier entries being well-formed), `get_resource_info` and
`get_map_info` panic via `expect("Is valid UTF-8 string.")` instead of
returning any typed `UioError`. -/
theorem nonUtf8_entry_name_panics
    (pre : List DirEntry) (bad : DirEntry) (rest : List (Except IoError DirEntry))
    (hpre : ∀ d ∈ pre, (∃ s, d.fileName = .utf8 s) ∧ (∃ n, d.metadataLen = .ok n))
    (hbad : bad.fileName = .nonUtf8) :
    get_resource_info (.ok (pre.map Except.ok ++ Except.ok bad :: rest))
      = .panicked utf8ExpectMsg ∧
    get_map_info (.ok (pre.map Except.ok ++ Except.ok bad :: rest))
      = .panicked utf8ExpectMsg := by
  constructor
  · exact get_resource_info_loop_panicked bad hbad rest pre [] hpre
  · exact get_map_info_loop_panicked bad hbad rest pre [] (fun d hd => (hpre d hd).1)

/-- Witness for the C9 theorem: a well-formed `resource0` entry followed by a
non-UTF-8 entry. -/
theorem nonUtf8_entry_name_panics_witness :
    get_resource_info (.ok (([⟨OsName.utf8 "resource0".data, Except.ok false,
        Except.ok 4096⟩] : List DirEntry).map Except.ok ++
      Except.ok (⟨OsName.nonUtf8, Except.ok true, Except.ok 0⟩ : DirEntry) :: []))
      = .panicked utf8ExpectMsg ∧
    get_map_info (.ok (([⟨OsName.utf8 "resource0".data, Except.ok false,
        Except.ok 4096⟩] : List DirEntry).map Except.ok ++
      Except.ok (⟨OsName.nonUtf8, Except.ok true, Except.ok 0⟩ : DirEntry) :: []))
      = .panicked utf8ExpectMsg :=
  nonUtf8_entry_name_panics
    [⟨OsName.utf8 "resource0".data, Except.ok false, Except.ok 4096⟩]
    ⟨OsName.nonUtf8, Except.ok true, Except.ok 0⟩ []
    (by intro d hd; simp at hd; subst hd; exact ⟨⟨_, rfl⟩, ⟨_, rfl⟩⟩) rfl

end Uio
